import Mathlib

/-!
Verification development for the divvy-receipt-automation webhook handler
(file divvy_receipt_automation.py).

The Python module is shallowly embedded as follows.

Strings are Lean strings; byte strings are lists of naturals.  The HTML
parser (BeautifulSoup) and the JSON decoder (json.loads) are external
collaborators: they appear as oracle functions inside an environment
record, mapping raw text to already-parsed values.  Parsed HTML is a
forest of nodes (tags with attributes and children, and text nodes),
parsed JSON is an inductive value.  The HTTP transport (requests.get and
requests.post) is likewise an oracle mapping a request to a response;
every network interaction performed by the code is recorded in an
explicit trace of calls.  Python exceptions (KeyError, IndexError,
AttributeError, TypeError) are modelled with an Except monad: a raised
exception is an error value that propagates to the entry point.
-/

/-- Python exceptions that the embedded code can raise. -/
inductive PyErr where
  | indexError : PyErr
  | attributeError : PyErr
  | typeError : PyErr
  | keyError : String → PyErr
deriving DecidableEq, Repr

mutual

/-- A node of a parsed HTML document, as produced by BeautifulSoup:
either a navigable string or a tag with a name, attributes and children. -/
inductive Node where
  | text : String → Node
  | elem : String → List (String × String) → Forest → Node

/-- A sequence of sibling nodes, in document order. -/
inductive Forest where
  | nil : Forest
  | cons : Node → Forest → Forest

end

/-- A parsed HTML document is a forest of nodes in document order. -/
abbrev Html := Forest

/-- Build a forest from a list of nodes. -/
def forestOf : List Node → Forest
  | [] => .nil
  | n :: rest => .cons n (forestOf rest)

/-- The first node of a forest, mirroring list indexing at position zero. -/
def forestHead? : Forest → Option Node
  | .nil => none
  | .cons n _ => some n

/-- A parsed JSON value, as produced by json.loads.  Numbers stand in for
all non-container, non-string JSON scalars. -/
inductive Json where
  | str : String → Json
  | num : Int → Json
  | arr : List Json → Json
  | obj : List (String × Json) → Json

/-- First-match lookup in an association list, mirroring a Python dict
built from unique keys. -/
def lookupStr {α : Type} : List (String × α) → String → Option α
  | [], _ => none
  | (k, v) :: rest, key => if k == key then some v else lookupStr rest key

/-- Whether the first list is an initial segment of the second. -/
def startsWith : List Char → List Char → Bool
  | [], _ => true
  | _ :: _, [] => false
  | a :: as, b :: bs => a == b && startsWith as bs

/-- Whether the first list occurs contiguously inside the second. -/
def infixOf (needle : List Char) : List Char → Bool
  | [] => startsWith needle []
  | c :: rest => startsWith needle (c :: rest) || infixOf needle rest

/-- Python substring membership: needle in hay. -/
def strContains (hay needle : String) : Bool :=
  infixOf needle.toList hay.toList

mutual

/-- All tags of a subtree satisfying a predicate, in document order
(each tag before its descendants).  This is BeautifulSoup find_all. -/
def findAllNode (p : Node → Bool) : Node → List Node
  | .text _ => []
  | .elem t a cs =>
      (if p (.elem t a cs) then [Node.elem t a cs] else []) ++ findAllForest p cs

/-- All tags of a forest satisfying a predicate, in document order. -/
def findAllForest (p : Node → Bool) : Forest → List Node
  | .nil => []
  | .cons n rest => findAllNode p n ++ findAllForest p rest

end

mutual

/-- Concatenated text of all descendant text nodes of a subtree, in
document order.  This is BeautifulSoup get_text: the visible text content. -/
def textOfNode : Node → String
  | .text s => s
  | .elem _ _ cs => textOfForest cs

/-- Concatenated text of all descendant text nodes of a forest. -/
def textOfForest : Forest → String
  | .nil => ""
  | .cons n rest => textOfNode n ++ textOfForest rest

end

/-- The children of a tag; a navigable string has none. -/
def contentsOf : Node → Forest
  | .text _ => .nil
  | .elem _ _ cs => cs

/-- Attribute lookup on a tag. -/
def attr? (n : Node) (k : String) : Option String :=
  match n with
  | .text _ => none
  | .elem _ attrs _ => lookupStr attrs k

/-- Python equality between a BeautifulSoup node and a string literal:
a navigable string compares by text, a tag is never equal to a string. -/
def nodeEqString (n : Node) (s : String) : Bool :=
  match n with
  | .text t => t == s
  | .elem _ _ _ => false

/-- The predicate of soup.find_all("a", href=True): an anchor tag
carrying an href attribute. -/
def isAnchorWithHref (n : Node) : Bool :=
  match n with
  | .text _ => false
  | .elem t attrs _ => t == "a" && (lookupStr attrs "href").isSome

/-- The predicate selecting script tags, used by soup.script. -/
def isScriptTag (n : Node) : Bool :=
  match n with
  | .text _ => false
  | .elem t _ _ => t == "script"

/-- The standard base64 alphabet. -/
def B64_ALPHABET : List Char :=
  "ABCDEFGHIJKLMNOPQRSTUVWXYZabcdefghijklmnopqrstuvwxyz0123456789+/".toList

/-- The base64 digit for a 6-bit value. -/
def b64digit (n : Nat) : Char := B64_ALPHABET.getD n '='

/-- base64.b64encode on a byte string, decoded back to text. -/
def b64encode : List Nat → String
  | [] => ""
  | [b1] =>
      String.mk [b64digit (b1 / 4), b64digit (b1 % 4 * 16)] ++ "=="
  | [b1, b2] =>
      String.mk [b64digit (b1 / 4), b64digit (b1 % 4 * 16 + b2 / 16), b64digit (b2 % 16 * 4)] ++ "="
  | b1 :: b2 :: b3 :: rest =>
      String.mk [b64digit (b1 / 4), b64digit (b1 % 4 * 16 + b2 / 16),
                 b64digit (b2 % 16 * 4 + b3 / 64), b64digit (b3 % 64)] ++ b64encode rest

/-- Whether a character is matched by the regex character class [a-z0-9]. -/
def isLowerAlnum (c : Char) : Bool :=
  (Char.ofNat 97 ≤ c && c ≤ Char.ofNat 122) || (Char.ofNat 48 ≤ c && c ≤ Char.ofNat 57)

/-- Whether a character is a lowercase hexadecimal digit: [a-f0-9]. -/
def isLowerHex (c : Char) : Bool :=
  (Char.ofNat 97 ≤ c && c ≤ Char.ofNat 102) || (Char.ofNat 48 ≤ c && c ≤ Char.ofNat 57)

/-- Match exactly n characters of the class cls at the head of the input,
returning the consumed characters and the remainder. -/
def takeClass (cls : Char → Bool) : Nat → List Char → Option (List Char × List Char)
  | 0, l => some ([], l)
  | _ + 1, [] => none
  | n + 1, c :: l =>
      if cls c then
        match takeClass cls n l with
        | some (m, r) => some (c :: m, r)
        | none => none
      else none

/-- Match a single dash at the head of the input. -/
def expectDash : List Char → Option (List Char)
  | [] => none
  | c :: r => if c == '-' then some r else none

/-- Attempt to match DIGIKEY_INVOICE_UUID_REGEX, the pattern
[a-z0-9]{8}-[a-z0-9]{4}-[a-z0-9]{4}-[a-z0-9]{4}-[a-z0-9]{12}, anchored at
the head of the input.  The pattern is of fixed length, so matching is
deterministic.  Returns the matched characters and the remainder. -/
def matchUuidAt (l : List Char) : Option (List Char × List Char) :=
  match takeClass isLowerAlnum 8 l with
  | none => none
  | some (g1, r1) =>
  match expectDash r1 with
  | none => none
  | some r2 =>
  match takeClass isLowerAlnum 4 r2 with
  | none => none
  | some (g2, r3) =>
  match expectDash r3 with
  | none => none
  | some r4 =>
  match takeClass isLowerAlnum 4 r4 with
  | none => none
  | some (g3, r5) =>
  match expectDash r5 with
  | none => none
  | some r6 =>
  match takeClass isLowerAlnum 4 r6 with
  | none => none
  | some (g4, r7) =>
  match expectDash r7 with
  | none => none
  | some r8 =>
  match takeClass isLowerAlnum 12 r8 with
  | none => none
  | some (g5, r9) =>
      some (g1 ++ '-' :: (g2 ++ '-' :: (g3 ++ '-' :: (g4 ++ '-' :: g5))), r9)

/-- re.search with the invoice UUID pattern: the leftmost match, if any. -/
def reSearchUuid : List Char → Option (List Char)
  | [] => none
  | c :: l =>
      match matchUuidAt (c :: l) with
      | some (m, _) => some m
      | none => reSearchUuid l

/-- The environment variables read at module load. -/
structure Config where
  DIVVY_RECEIPT_EMAIL_ADDRESS : String
  POSTMARK_TOKEN : String
  DIGIKEY_SENDER_EMAIL_ADDRESS : String
  MCMASTER_SENDER_EMAIL_ADDRESS : String
  TOP_KART_SENDER_EMAIL_ADDRESS : String

/-- An HTTP GET request issued through requests.get. -/
structure HttpGetRequest where
  url : String
  params : List (String × String)
  headers : List (String × String)
deriving DecidableEq, Repr

/-- An HTTP response: its status code, its text (raw, to be parsed by the
HTML oracle where the code does so) and its binary content. -/
structure HttpResponse where
  status_code : Int
  text : String
  content : List Nat

/-- One attachment of an outbound Postmark email. -/
structure OutAttachment where
  Name : String
  Content : String
  ContentType : String
deriving DecidableEq, Repr

/-- The JSON payload of an outbound Postmark send-email call. -/
structure ForwardRequest where
  From : String
  To : String
  Subject : String
  TextBody : String
  MessageStream : String
  Attachments : List OutAttachment
deriving DecidableEq, Repr

/-- A recorded outbound network interaction. -/
inductive Call where
  | get : HttpGetRequest → Call
  | post : ForwardRequest → Call
deriving DecidableEq, Repr

/-- The value returned by the Lambda handler. -/
structure StatusRet where
  statusCode : Int
deriving DecidableEq, Repr

/-- The external world: configuration, the JSON decoder, the HTML parser
and the HTTP transport, each an oracle fixed for one invocation. -/
structure Env where
  cfg : Config
  loads : String → Option Json
  parseHtml : String → Html
  get : HttpGetRequest → HttpResponse

/-- digikey_get_invoice_tracking_url loop body: for each anchor carrying
an href, read its first content node (IndexError when there is none) and,
when that node equals the string Review Invoice, overwrite the result
with the href of that anchor.  The last match therefore wins. -/
def trackingLoop : List Node → Option String → Except PyErr (Option String)
  | [], acc => .ok acc
  | a :: rest, acc =>
      match forestHead? (contentsOf a) with
      | none => .error .indexError
      | some c =>
          trackingLoop rest (if nodeEqString c "Review Invoice" then attr? a "href" else acc)

/-- digikey_get_invoice_tracking_url: extract the tracking link from a
parsed Digi-Key HTML email. -/
def digikey_get_invoice_tracking_url (soup : Html) : Except PyErr (Option String) :=
  trackingLoop (findAllForest isAnchorWithHref soup) none

/-- The GET request issued for the invoice tracking URL: a bare
requests.get with no params and no extra headers. -/
def trackingRequest (invoice_url : String) : HttpGetRequest :=
  { url := invoice_url, params := [], headers := [] }

/-- digikey_get_invoice_uuid: fetch the tracking URL, require status 302,
parse the response text as HTML, take the first script tag (AttributeError
when there is none), its first content (IndexError when empty, TypeError
when re.search is applied to a tag rather than a string) and search it
with the invoice UUID regex. -/
def digikey_get_invoice_uuid (env : Env) (invoice_url : String) :
    Except PyErr (Option String × List Call) :=
  let resp := env.get (trackingRequest invoice_url)
  let calls := [Call.get (trackingRequest invoice_url)]
  if resp.status_code ≠ 302 then
    .ok (none, calls)
  else
    match (findAllForest isScriptTag (env.parseHtml resp.text)).head? with
    | none => .error .attributeError
    | some sc =>
        match forestHead? (contentsOf sc) with
        | none => .error .indexError
        | some (.elem _ _ _) => .error .typeError
        | some (.text t) =>
            match reSearchUuid t.toList with
            | none => .ok (none, calls)
            | some m => .ok (some (String.mk m), calls)

/-- The browser-like User-Agent header value sent to the PDF endpoint. -/
def USER_AGENT : String :=
  "Mozilla/5.0 (X11; Linux x86_64) AppleWebKit/537.36 (KHTML, like Gecko) Chrome/104.0.0.0 Safari/537.36"

/-- The GET request issued to download an invoice PDF by UUID. -/
def pdfRequest (invoice_uuid : String) : HttpGetRequest :=
  { url := "https://www.digikey.com/MyDigiKey/Invoice/PDF"
  , params := [("id", invoice_uuid)]
  , headers := [("User-Agent", USER_AGENT)] }

/-- digikey_download_pdf: fetch the PDF for an invoice UUID, requiring
status 200, and return the raw binary response content. -/
def digikey_download_pdf (env : Env) (invoice_uuid : String) :
    Option (List Nat) × List Call :=
  let resp := env.get (pdfRequest invoice_uuid)
  (if resp.status_code ≠ 200 then none else some resp.content,
   [Call.get (pdfRequest invoice_uuid)])

/-- The Postmark payload built by digikey_forward_to_divvy. -/
def digikey_forward_request (cfg : Config) (pdf_binary : List Nat) : ForwardRequest :=
  { From := cfg.DIGIKEY_SENDER_EMAIL_ADDRESS
  , To := cfg.DIVVY_RECEIPT_EMAIL_ADDRESS
  , Subject := "Receipt for Digi-Key transaction"
  , TextBody := "This is an automatically generated email to upload a Digi-Key receipt to Divvy. Please build a proper API so I don\x27t have to do this. https://github.com/RoboJackets/divvy-receipt-automation"
  , MessageStream := "outbound"
  , Attachments :=
      [{ Name := "receipt.pdf"
       , Content := b64encode pdf_binary
       , ContentType := "application/pdf" }] }

/-- digikey_forward_to_divvy: post the payload; the single side effect is
the recorded outbound call. -/
def digikey_forward_to_divvy (cfg : Config) (pdf_binary : List Nat) : Unit × List Call :=
  ((), [Call.post (digikey_forward_request cfg pdf_binary)])

/-- The Postmark payload built by mcmaster_forward_to_divvy. -/
def mcmaster_forward_request (cfg : Config) (pdf_base64 : String) : ForwardRequest :=
  { From := cfg.MCMASTER_SENDER_EMAIL_ADDRESS
  , To := cfg.DIVVY_RECEIPT_EMAIL_ADDRESS
  , Subject := "Receipt for McMaster-Carr transaction"
  , TextBody := "This is an automatically generated email to upload a McMaster-Carr receipt to Divvy. Please build a proper API so I don\x27t have to do this. https://github.com/RoboJackets/divvy-receipt-automation"
  , MessageStream := "outbound"
  , Attachments :=
      [{ Name := "receipt.pdf"
       , Content := pdf_base64
       , ContentType := "application/pdf" }] }

/-- mcmaster_forward_to_divvy: post the payload. -/
def mcmaster_forward_to_divvy (cfg : Config) (pdf_base64 : String) : Unit × List Call :=
  ((), [Call.post (mcmaster_forward_request cfg pdf_base64)])

/-- The Postmark payload built by top_kart_forward_to_divvy. -/
def top_kart_forward_request (cfg : Config) (pdf_base64 : String) : ForwardRequest :=
  { From := cfg.TOP_KART_SENDER_EMAIL_ADDRESS
  , To := cfg.DIVVY_RECEIPT_EMAIL_ADDRESS
  , Subject := "Receipt for Top Kart transaction"
  , TextBody := "This is an automatically generated email to upload a Top Kart receipt to Divvy. Please build a proper API so I don\x27t have to do this. https://github.com/RoboJackets/divvy-receipt-automation"
  , MessageStream := "outbound"
  , Attachments :=
      [{ Name := "receipt.pdf"
       , Content := pdf_base64
       , ContentType := "application/pdf" }] }

/-- top_kart_forward_to_divvy: post the payload. -/
def top_kart_forward_to_divvy (cfg : Config) (pdf_base64 : String) : Unit × List Call :=
  ((), [Call.post (top_kart_forward_request cfg pdf_base64)])

/-- process_digikey_email: chain the link extractor, the redirect
resolver, the document fetcher and the forwarder, short-circuiting when a
stage returns an absent result.  BeautifulSoup raises TypeError when
handed a non-string body. -/
def process_digikey_email (env : Env) (html_body : Json) : Except PyErr (Unit × List Call) :=
  match html_body with
  | .str s =>
      match digikey_get_invoice_tracking_url (env.parseHtml s) with
      | .error e => .error e
      | .ok none => .ok ((), [])
      | .ok (some invoice_tracking_url) =>
          match digikey_get_invoice_uuid env invoice_tracking_url with
          | .error e => .error e
          | .ok (none, c1) => .ok ((), c1)
          | .ok (some invoice_uuid, c1) =>
              match digikey_download_pdf env invoice_uuid with
              | (none, c2) => .ok ((), c1 ++ c2)
              | (some invoice_pdf_binary, c2) =>
                  .ok ((), c1 ++ c2 ++ (digikey_forward_to_divvy env.cfg invoice_pdf_binary).2)
  | _ => .error .typeError

/-- Loop body of process_mcmaster_email over the decoded attachment
values: each attachment must be a JSON object (string indexing of other
shapes raises TypeError), its ContentType is read (KeyError when absent)
and compared against the two accepted content types, and on a match its
Content is forwarded unchanged.  Attachment Content is modelled as a
string, per the webhook schema. -/
def mcmasterLoop (cfg : Config) : List Json → Except PyErr (List Call)
  | [] => .ok []
  | att :: rest =>
      match att with
      | .obj kvs =>
          match lookupStr kvs "ContentType" with
          | none => .error (.keyError "ContentType")
          | some ctv =>
              let hit := match ctv with
                | .str ct => ct == "application/pdf" || ct == "application/octet-stream"
                | _ => false
              if hit then
                match lookupStr kvs "Content" with
                | none => .error (.keyError "Content")
                | some (.str content) =>
                    match mcmasterLoop cfg rest with
                    | .error e => .error e
                    | .ok cs => .ok ((mcmaster_forward_to_divvy cfg content).2 ++ cs)
                | some _ => .error .typeError
              else
                mcmasterLoop cfg rest
      | _ => .error .typeError

/-- process_mcmaster_email: iterate over the attachments value.  A JSON
array iterates its elements; an empty string or empty object iterates
nothing; any element of a nonempty string or object is a string whose
string indexing raises TypeError; a number is not iterable. -/
def process_mcmaster_email (cfg : Config) (attachments : Json) : Except PyErr (Unit × List Call) :=
  match attachments with
  | .arr xs =>
      match mcmasterLoop cfg xs with
      | .error e => .error e
      | .ok cs => .ok ((), cs)
  | .str s => if s.isEmpty then .ok ((), []) else .error .typeError
  | .obj kvs => if kvs.isEmpty then .ok ((), []) else .error .typeError
  | .num _ => .error .typeError

/-- Loop body of process_top_kart_email, identical to the McMaster-Carr
loop except for the forwarder. -/
def topKartLoop (cfg : Config) : List Json → Except PyErr (List Call)
  | [] => .ok []
  | att :: rest =>
      match att with
      | .obj kvs =>
          match lookupStr kvs "ContentType" with
          | none => .error (.keyError "ContentType")
          | some ctv =>
              let hit := match ctv with
                | .str ct => ct == "application/pdf" || ct == "application/octet-stream"
                | _ => false
              if hit then
                match lookupStr kvs "Content" with
                | none => .error (.keyError "Content")
                | some (.str content) =>
                    match topKartLoop cfg rest with
                    | .error e => .error e
                    | .ok cs => .ok ((top_kart_forward_to_divvy cfg content).2 ++ cs)
                | some _ => .error .typeError
              else
                topKartLoop cfg rest
      | _ => .error .typeError

/-- process_top_kart_email: iterate over the attachments value. -/
def process_top_kart_email (cfg : Config) (attachments : Json) : Except PyErr (Unit × List Call) :=
  match attachments with
  | .arr xs =>
      match topKartLoop cfg xs with
      | .error e => .error e
      | .ok cs => .ok ((), cs)
  | .str s => if s.isEmpty then .ok ((), []) else .error .typeError
  | .obj kvs => if kvs.isEmpty then .ok ((), []) else .error .typeError
  | .num _ => .error .typeError

/-- Python membership test key in value on a decoded JSON value: key
membership for an object, element equality for an array, substring test
for a string, TypeError for a number. -/
def jsonHasKey (j : Json) (k : String) : Except PyErr Bool :=
  match j with
  | .obj kvs => .ok (kvs.any (fun kv => kv.1 == k))
  | .arr xs => .ok (xs.any (fun x => match x with | .str s => s == k | _ => false))
  | .str s => .ok (strContains s k)
  | .num _ => .error .typeError

/-- Python subscription value[key] on a decoded JSON value: object lookup
(KeyError when absent), TypeError for every other shape. -/
def jsonIndex (j : Json) (k : String) : Except PyErr Json :=
  match j with
  | .obj kvs =>
      match lookupStr kvs k with
      | some v => .ok v
      | none => .error (.keyError k)
  | _ => .error .typeError

/-- handler: the Lambda entry point.  Missing body, undecodable body and
missing HtmlBody all acknowledge with status 204; otherwise both HtmlBody
and Attachments are read from the payload, the HtmlBody is probed for the
vendor substrings digikey, mcmaster, topkart in that priority order, the
matching pipeline (if any) runs, and status 204 is returned. -/
def handler (env : Env) (event : List (String × String)) :
    Except PyErr (StatusRet × List Call) :=
  match lookupStr event "body" with
  | none => .ok ({ statusCode := 204 }, [])
  | some body =>
  match env.loads body with
  | none => .ok ({ statusCode := 204 }, [])
  | some json_payload =>
  match jsonHasKey json_payload "HtmlBody" with
  | .error e => .error e
  | .ok false => .ok ({ statusCode := 204 }, [])
  | .ok true =>
  match jsonIndex json_payload "HtmlBody" with
  | .error e => .error e
  | .ok html_body =>
  match jsonIndex json_payload "Attachments" with
  | .error e => .error e
  | .ok attachments =>
  match jsonHasKey html_body "digikey" with
  | .error e => .error e
  | .ok true =>
      match process_digikey_email env html_body with
      | .error e => .error e
      | .ok (_, cs) => .ok ({ statusCode := 204 }, cs)
  | .ok false =>
  match jsonHasKey html_body "mcmaster" with
  | .error e => .error e
  | .ok true =>
      match process_mcmaster_email env.cfg attachments with
      | .error e => .error e
      | .ok (_, cs) => .ok ({ statusCode := 204 }, cs)
  | .ok false =>
  match jsonHasKey html_body "topkart" with
  | .error e => .error e
  | .ok true =>
      match process_top_kart_email env.cfg attachments with
      | .error e => .error e
      | .ok (_, cs) => .ok ({ statusCode := 204 }, cs)
  | .ok false => .ok ({ statusCode := 204 }, [])

/-!
Specification-side definitions.  These follow the wording of the
specification and of the claims and are compared with the embedded code
in the theorems below.
-/

/-- The canonical grouped textual shape over a character class, following
the specification wording: five dash-separated groups of 8, 4, 4, 4 and
12 characters, each character drawn from the class. -/
def SpecUuidShaped (cls : Char → Bool) (u : List Char) : Prop :=
  ∃ g1 g2 g3 g4 g5 : List Char,
    g1.length = 8 ∧ g2.length = 4 ∧ g3.length = 4 ∧ g4.length = 4 ∧ g5.length = 12 ∧
    (∀ c ∈ g1 ++ g2 ++ g3 ++ g4 ++ g5, cls c = true) ∧
    u = g1 ++ '-' :: (g2 ++ '-' :: (g3 ++ '-' :: (g4 ++ '-' :: g5)))

/-- Whether the first content node of a tag is the text Review Invoice,
the condition the source loop tests on each anchor. -/
def firstContentIsReview (a : Node) : Bool :=
  match forestHead? (contentsOf a) with
  | some c => nodeEqString c "Review Invoice"
  | none => false

/-- The href of the last anchor in the list whose first content node is
the text Review Invoice; stated via the first match of the reversed
list. -/
def lastReviewHref (l : List Node) : Option String :=
  (l.reverse.find? firstContentIsReview).bind (fun a => attr? a "href")

/-- An attachment record of the webhook JSON schema: declared content
type, base64 content and file name, all strings. -/
structure AttachmentRecord where
  ContentType : String
  Content : String
  Name : String

/-- The decoded JSON value of an attachment record. -/
def attachmentJson (a : AttachmentRecord) : Json :=
  .obj [("ContentType", .str a.ContentType), ("Content", .str a.Content), ("Name", .str a.Name)]

/-- The content-type filter of the direct-attachment pipelines. -/
def attMatches (a : AttachmentRecord) : Bool :=
  a.ContentType == "application/pdf" || a.ContentType == "application/octet-stream"

/-- Replace the Name field of an attachment record. -/
def renameAtt (f : AttachmentRecord → String) (a : AttachmentRecord) : AttachmentRecord :=
  { a with Name := f a }

/-!
Concrete scenario data used by witnesses and counterexamples.
-/

/-- A fixed configuration for concrete scenarios. -/
def cfgA : Config :=
  { DIVVY_RECEIPT_EMAIL_ADDRESS := "receipts@example.org"
  , POSTMARK_TOKEN := "postmark-token"
  , DIGIKEY_SENDER_EMAIL_ADDRESS := "digikey@example.org"
  , MCMASTER_SENDER_EMAIL_ADDRESS := "mcmaster@example.org"
  , TOP_KART_SENDER_EMAIL_ADDRESS := "topkart@example.org" }

/-- The HtmlBody of end-to-end scenario 1. -/
def scenarioHtml : String :=
  "...digikey...<a href=\x27https://track.example/x\x27>Review Invoice</a>..."

/-- The webhook body of end-to-end scenario 1 exactly as the claim gives
it: an HtmlBody and no Attachments key. -/
def scenarioBodyNoAtt : String :=
  "\x7b\"HtmlBody\": \"...digikey...<a href=\x27https://track.example/x\x27>Review Invoice</a>...\"\x7d"

/-- The webhook body of end-to-end scenario 1 with an Attachments key
added, the minimal repair that lets the handler proceed. -/
def scenarioBody : String :=
  "\x7b\"HtmlBody\": \"...digikey...<a href=\x27https://track.example/x\x27>Review Invoice</a>...\", \"Attachments\": []\x7d"

/-- The parse of scenarioHtml: surrounding text and the review anchor. -/
def scenarioDoc : Html :=
  forestOf
    [ Node.text "...digikey..."
    , Node.elem "a" [("href", "https://track.example/x")] (forestOf [Node.text "Review Invoice"])
    , Node.text "..." ]

/-- The script content of the tracking redirect page, carrying the
invoice UUID. -/
def scriptText : String := "var invoiceUuid = \x271a2b3c4d-1234-5678-9abc-1234567890ab\x27;"

/-- The raw text of the tracking redirect page. -/
def redirectText : String :=
  "<script>var invoiceUuid = \x271a2b3c4d-1234-5678-9abc-1234567890ab\x27;</script>"

/-- The parse of redirectText: a single script tag. -/
def redirectDoc : Html :=
  forestOf [ Node.elem "script" [] (forestOf [Node.text scriptText]) ]

/-- The PDF bytes of end-to-end scenario 1: the byte string %PDF-1.4... -/
def pdfBytes : List Nat := [37, 80, 68, 70, 45, 49, 46, 52, 46, 46, 46]

/-- The environment of end-to-end scenario 1: the JSON decoder and HTML
parser behave as json.loads and BeautifulSoup do on the scenario inputs,
the tracking URL answers 302 with the redirect page and the PDF endpoint
answers 200 with the PDF bytes. -/
def env2 : Env :=
  { cfg := cfgA
  , loads := fun s =>
      if s == scenarioBody then
        some (Json.obj [("HtmlBody", Json.str scenarioHtml), ("Attachments", Json.arr [])])
      else if s == scenarioBodyNoAtt then
        some (Json.obj [("HtmlBody", Json.str scenarioHtml)])
      else none
  , parseHtml := fun s =>
      if s == scenarioHtml then scenarioDoc
      else if s == redirectText then redirectDoc
      else .nil
  , get := fun req =>
      if req == trackingRequest "https://track.example/x" then
        { status_code := 302, text := redirectText, content := [] }
      else if req == pdfRequest "1a2b3c4d-1234-5678-9abc-1234567890ab" then
        { status_code := 200, text := "", content := pdfBytes }
      else { status_code := 404, text := "", content := [] } }

/-- A webhook body whose JSON is an object with HtmlBody but without
Attachments. -/
def bodyHelloNoAtt : String := "\x7b\"HtmlBody\": \"hello\"\x7d"

/-- Environment for the structurally-parseable event without an
Attachments key: the decoder decodes bodyHelloNoAtt as json.loads
would; nothing else is reachable. -/
def env1 : Env :=
  { cfg := cfgA
  , loads := fun s =>
      if s == bodyHelloNoAtt then some (Json.obj [("HtmlBody", Json.str "hello")]) else none
  , parseHtml := fun _ => .nil
  , get := fun _ => { status_code := 404, text := "", content := [] } }

/-- The anchor of the C3 counterexample document: its visible text is
exactly Review Invoice, but its first content node is a tag. -/
def c3anchor : Node :=
  Node.elem "a" [("href", "u")] (forestOf [Node.elem "span" [] (forestOf [Node.text "Review Invoice"])])

/-- A document whose only anchor wraps its link text in a span. -/
def c3doc : Html := forestOf [c3anchor]

/-- A document whose only anchor carries an href but has no contents. -/
def c4doc : Html := forestOf [Node.elem "a" [("href", "x")] Forest.nil]

/-- The raw text of a redirect page with no script tag. -/
def noScriptText : String := "<p>no script here</p>"

/-- Environment whose tracking URL answers 302 with a page containing no
script tag. -/
def env6 : Env :=
  { cfg := cfgA
  , loads := fun _ => none
  , parseHtml := fun s =>
      if s == noScriptText then forestOf [Node.elem "p" [] (forestOf [Node.text "no script here"])]
      else .nil
  , get := fun _ => { status_code := 302, text := noScriptText, content := [] } }

/-- Environment whose every GET answers 404, and whose parser returns a
document with a review anchor, used to exercise the non-302 path. -/
def env5 : Env :=
  { cfg := cfgA
  , loads := fun _ => none
  , parseHtml := fun _ =>
      forestOf [Node.elem "a" [("href", "https://t.example/a")] (forestOf [Node.text "Review Invoice"])]
  , get := fun _ => { status_code := 404, text := "", content := [] } }

/-- A document with two review anchors, to exercise last-match-wins. -/
def c3docPos : Html :=
  forestOf
    [ Node.elem "a" [("href", "u1")] (forestOf [Node.text "Review Invoice"])
    , Node.elem "a" [("href", "u2")] (forestOf [Node.text "Review Invoice"]) ]

/-- A 36-character string of the regex shape whose characters are not all
hexadecimal digits. -/
def gUuid : List Char := "gggggggg-gggg-gggg-gggg-gggggggggggg".toList

/-- The UUID of end-to-end scenario 1, as characters. -/
def uuidChars : List Char := "1a2b3c4d-1234-5678-9abc-1234567890ab".toList

/-!
Helper lemmas.
-/

theorem takeClass_iff (cls : Char → Bool) :
    ∀ (n : Nat) (l m r : List Char),
      takeClass cls n l = some (m, r) ↔
        (m.length = n ∧ (∀ c ∈ m, cls c = true) ∧ l = m ++ r) := by
  intro n
  induction n with
  | zero =>
    intro l m r
    constructor
    · intro h
      simp only [takeClass, Option.some.injEq, Prod.mk.injEq] at h
      obtain ⟨hm, hr⟩ := h
      subst hm; subst hr
      simp
    · rintro ⟨hlen, _, hl⟩
      have hm : m = [] := List.eq_nil_of_length_eq_zero hlen
      subst hm
      simp only [List.nil_append] at hl
      subst hl
      rfl
  | succ n ih =>
    intro l m r
    cases l with
    | nil =>
      constructor
      · intro h; simp [takeClass] at h
      · rintro ⟨hlen, _, hl⟩
        cases m with
        | nil => simp at hlen
        | cons c m' => simp at hl
    | cons c l' =>
      constructor
      · intro h
        simp only [takeClass] at h
        by_cases hc : cls c
        · rw [if_pos hc] at h
          cases htc : takeClass cls n l' with
          | none => rw [htc] at h; simp at h
          | some pr =>
            obtain ⟨m', r'⟩ := pr
            rw [htc] at h
            simp only [Option.some.injEq, Prod.mk.injEq] at h
            obtain ⟨hm, hr⟩ := h
            obtain ⟨hlen', hcls', hl'⟩ := (ih l' m' r').mp htc
            subst hm; subst hr; subst hl'
            refine ⟨by simp [hlen'], ?_, by simp⟩
            intro d hd
            rcases List.mem_cons.mp hd with h | h
            · subst h; exact hc
            · exact hcls' d h
        · rw [if_neg hc] at h; simp at h
      · rintro ⟨hlen, hcls, hl⟩
        cases m with
        | nil => simp at hlen
        | cons d m' =>
          simp only [List.cons_append, List.cons.injEq] at hl
          obtain ⟨hdc, hl'⟩ := hl
          subst hdc
          have hc : cls c = true := hcls c (List.mem_cons_self c m')
          have htc : takeClass cls n l' = some (m', r) := by
            refine (ih l' m' r).mpr ⟨?_, ?_, hl'⟩
            · simpa using hlen
            · intro e he; exact hcls e (List.mem_cons_of_mem c he)
          simp only [takeClass, hc, if_true, htc]

theorem expectDash_iff (l r : List Char) : expectDash l = some r ↔ l = '-' :: r := by
  cases l with
  | nil => simp [expectDash]
  | cons c l' =>
    by_cases hc : c = '-'
    · subst hc; simp [expectDash]
    · simp [expectDash, hc]

theorem matchUuidAt_iff (l m r : List Char) :
    matchUuidAt l = some (m, r) ↔ SpecUuidShaped isLowerAlnum m ∧ l = m ++ r := by
  constructor
  · intro h
    simp only [matchUuidAt] at h
    cases h1 : takeClass isLowerAlnum 8 l with
    | none => simp [h1] at h
    | some p1 =>
      obtain ⟨g1, r1⟩ := p1
      simp only [h1] at h
      cases h2 : expectDash r1 with
      | none => simp [h2] at h
      | some r2 =>
        simp only [h2] at h
        cases h3 : takeClass isLowerAlnum 4 r2 with
        | none => simp [h3] at h
        | some p3 =>
          obtain ⟨g2, r3⟩ := p3
          simp only [h3] at h
          cases h4 : expectDash r3 with
          | none => simp [h4] at h
          | some r4 =>
            simp only [h4] at h
            cases h5 : takeClass isLowerAlnum 4 r4 with
            | none => simp [h5] at h
            | some p5 =>
              obtain ⟨g3, r5⟩ := p5
              simp only [h5] at h
              cases h6 : expectDash r5 with
              | none => simp [h6] at h
              | some r6 =>
                simp only [h6] at h
                cases h7 : takeClass isLowerAlnum 4 r6 with
                | none => simp [h7] at h
                | some p7 =>
                  obtain ⟨g4, r7⟩ := p7
                  simp only [h7] at h
                  cases h8 : expectDash r7 with
                  | none => simp [h8] at h
                  | some r8 =>
                    simp only [h8] at h
                    cases h9 : takeClass isLowerAlnum 12 r8 with
                    | none => simp [h9] at h
                    | some p9 =>
                      obtain ⟨g5, r9⟩ := p9
                      simp only [h9] at h
                      simp only [Option.some.injEq, Prod.mk.injEq] at h
                      obtain ⟨hm, hr⟩ := h
                      obtain ⟨e1len, e1cls, e1⟩ := (takeClass_iff isLowerAlnum 8 l g1 r1).mp h1
                      have e2 := (expectDash_iff r1 r2).mp h2
                      obtain ⟨e3len, e3cls, e3⟩ := (takeClass_iff isLowerAlnum 4 r2 g2 r3).mp h3
                      have e4 := (expectDash_iff r3 r4).mp h4
                      obtain ⟨e5len, e5cls, e5⟩ := (takeClass_iff isLowerAlnum 4 r4 g3 r5).mp h5
                      have e6 := (expectDash_iff r5 r6).mp h6
                      obtain ⟨e7len, e7cls, e7⟩ := (takeClass_iff isLowerAlnum 4 r6 g4 r7).mp h7
                      have e8 := (expectDash_iff r7 r8).mp h8
                      obtain ⟨e9len, e9cls, e9⟩ := (takeClass_iff isLowerAlnum 12 r8 g5 r9).mp h9
                      subst hm
                      subst hr
                      constructor
                      · refine ⟨g1, g2, g3, g4, g5, e1len, e3len, e5len, e7len, e9len, ?_, rfl⟩
                        intro c hc
                        simp only [List.append_assoc, List.mem_append] at hc
                        rcases hc with hc | hc | hc | hc | hc
                        · exact e1cls c hc
                        · exact e3cls c hc
                        · exact e5cls c hc
                        · exact e7cls c hc
                        · exact e9cls c hc
                      · subst e1; subst e2; subst e3; subst e4; subst e5
                        subst e6; subst e7; subst e8; subst e9
                        simp [List.append_assoc]
  · rintro ⟨⟨g1, g2, g3, g4, g5, hg1, hg2, hg3, hg4, hg5, hcls, hm⟩, hl⟩
    have hmem : ∀ c, (c ∈ g1 ∨ c ∈ g2 ∨ c ∈ g3 ∨ c ∈ g4 ∨ c ∈ g5) → isLowerAlnum c = true := by
      intro c hc
      apply hcls
      simp only [List.append_assoc, List.mem_append]
      tauto
    subst hm
    subst hl
    have hL : (g1 ++ '-' :: (g2 ++ '-' :: (g3 ++ '-' :: (g4 ++ '-' :: g5)))) ++ r
        = g1 ++ '-' :: (g2 ++ '-' :: (g3 ++ '-' :: (g4 ++ '-' :: (g5 ++ r)))) := by
      simp [List.append_assoc]
    rw [hL]
    have t1 : takeClass isLowerAlnum 8
        (g1 ++ '-' :: (g2 ++ '-' :: (g3 ++ '-' :: (g4 ++ '-' :: (g5 ++ r)))))
        = some (g1, '-' :: (g2 ++ '-' :: (g3 ++ '-' :: (g4 ++ '-' :: (g5 ++ r))))) :=
      (takeClass_iff _ _ _ _ _).mpr ⟨hg1, fun c hc => hmem c (Or.inl hc), rfl⟩
    have t2 : takeClass isLowerAlnum 4 (g2 ++ '-' :: (g3 ++ '-' :: (g4 ++ '-' :: (g5 ++ r))))
        = some (g2, '-' :: (g3 ++ '-' :: (g4 ++ '-' :: (g5 ++ r)))) :=
      (takeClass_iff _ _ _ _ _).mpr ⟨hg2, fun c hc => hmem c (Or.inr (Or.inl hc)), rfl⟩
    have t3 : takeClass isLowerAlnum 4 (g3 ++ '-' :: (g4 ++ '-' :: (g5 ++ r)))
        = some (g3, '-' :: (g4 ++ '-' :: (g5 ++ r))) :=
      (takeClass_iff _ _ _ _ _).mpr ⟨hg3, fun c hc => hmem c (Or.inr (Or.inr (Or.inl hc))), rfl⟩
    have t4 : takeClass isLowerAlnum 4 (g4 ++ '-' :: (g5 ++ r))
        = some (g4, '-' :: (g5 ++ r)) :=
      (takeClass_iff _ _ _ _ _).mpr ⟨hg4, fun c hc => hmem c (Or.inr (Or.inr (Or.inr (Or.inl hc)))), rfl⟩
    have t5 : takeClass isLowerAlnum 12 (g5 ++ r) = some (g5, r) :=
      (takeClass_iff _ _ _ _ _).mpr
        ⟨hg5, fun c hc => hmem c (Or.inr (Or.inr (Or.inr (Or.inr hc)))), rfl⟩
    simp only [matchUuidAt, t1, t2, t3, t4, t5, expectDash, beq_self_eq_true, if_true]

theorem reSearchUuid_sound (s u : List Char) (h : reSearchUuid s = some u) :
    SpecUuidShaped isLowerAlnum u ∧ ∃ p q : List Char, s = p ++ u ++ q := by
  induction s with
  | nil => simp [reSearchUuid] at h
  | cons c l ih =>
    simp only [reSearchUuid] at h
    cases hm : matchUuidAt (c :: l) with
    | some pr =>
      obtain ⟨m, rest⟩ := pr
      simp only [hm] at h
      obtain ⟨hshape, hdec⟩ := (matchUuidAt_iff (c :: l) m rest).mp hm
      cases h
      exact ⟨hshape, [], rest, hdec⟩
    | none =>
      simp only [hm] at h
      obtain ⟨hshape, p, q, hpq⟩ := ih h
      exact ⟨hshape, c :: p, q, by simp [hpq]⟩

theorem reSearchUuid_complete (p u q : List Char) (hu : SpecUuidShaped isLowerAlnum u) :
    (reSearchUuid (p ++ u ++ q)).isSome = true := by
  induction p with
  | nil =>
    have hm : matchUuidAt (u ++ q) = some (u, q) :=
      (matchUuidAt_iff (u ++ q) u q).mpr ⟨hu, rfl⟩
    obtain ⟨g1, g2, g3, g4, g5, hg1, _, _, _, _, _, hu'⟩ := hu
    cases g1 with
    | nil => simp at hg1
    | cons c g1' =>
      subst hu'
      simp only [List.nil_append]
      simp only [List.cons_append] at hm ⊢
      simp only [reSearchUuid, hm, Option.isSome_some]
  | cons c p' ih =>
    simp only [List.cons_append, reSearchUuid]
    cases hm : matchUuidAt (c :: (p' ++ u ++ q)) with
    | some pr => simp
    | none =>
      simp only []
      simpa using ih

theorem mem_findAllForest (p : Node → Bool) (f : Forest) :
    ∀ m ∈ findAllForest p f, p m = true :=
  @Forest.rec (fun n => ∀ m ∈ findAllNode p n, p m = true)
    (fun f => ∀ m ∈ findAllForest p f, p m = true)
    (fun _s => by simp [findAllNode])
    (fun t a cs ih => by
      intro m hm
      simp only [findAllNode, List.mem_append] at hm
      rcases hm with h | h
      · by_cases hp : p (Node.elem t a cs)
        · simp only [hp, if_true, List.mem_singleton] at h
          subst h
          exact hp
        · simp [hp] at h
      · exact ih m h)
    (by simp [findAllForest])
    (fun n rest ih1 ih2 => by
      intro m hm
      simp only [findAllForest, List.mem_append] at hm
      rcases hm with h | h
      · exact ih1 m h
      · exact ih2 m h)
    f

theorem trackingLoop_eq (l : List Node)
    (hne : ∀ a ∈ l, forestHead? (contentsOf a) ≠ none)
    (hhref : ∀ a ∈ l, (attr? a "href").isSome = true) :
    ∀ acc : Option String,
      trackingLoop l acc = .ok ((lastReviewHref l).or acc) := by
  induction l with
  | nil => intro acc; simp [trackingLoop, lastReviewHref]
  | cons a rest ih =>
    intro acc
    have ha : forestHead? (contentsOf a) ≠ none := hne a (List.mem_cons_self a rest)
    cases hc : forestHead? (contentsOf a) with
    | none => exact absurd hc ha
    | some c =>
      simp only [trackingLoop, hc]
      have ihr := ih (fun x hx => hne x (List.mem_cons_of_mem a hx))
        (fun x hx => hhref x (List.mem_cons_of_mem a hx))
      rw [ihr]
      have hfc : firstContentIsReview a = nodeEqString c "Review Invoice" := by
        simp [firstContentIsReview, hc]
      have hrev : lastReviewHref (a :: rest)
          = (lastReviewHref rest).or (if firstContentIsReview a then attr? a "href" else none) := by
        simp only [lastReviewHref, List.reverse_cons, List.find?_append]
        cases hfind : List.find? firstContentIsReview rest.reverse with
        | some b =>
          have hb : b ∈ rest := by
            have hm := List.mem_of_find?_eq_some hfind
            simpa using hm
          have hbsome := hhref b (List.mem_cons_of_mem a hb)
          cases hbu : attr? b "href" with
          | none => rw [hbu] at hbsome; simp at hbsome
          | some u => simp [Option.or, hbu]
        | none =>
          cases hfa : firstContentIsReview a with
          | true => simp [Option.or, List.find?, hfa]
          | false => simp [Option.or, List.find?, hfa]
      rw [hrev, hfc]
      cases hmatch : nodeEqString c "Review Invoice" with
      | true =>
        simp only [if_true]
        cases hlast : lastReviewHref rest with
        | some u => simp [Option.or]
        | none =>
          cases hattr : attr? a "href" with
          | none =>
            have hsome := hhref a (List.mem_cons_self a rest)
            rw [hattr] at hsome
            simp at hsome
          | some u => simp [Option.or]
      | false =>
        have hif2 : (if (false = true) then attr? a "href" else acc) = acc := by simp
        have hif : (if (false = true) then attr? a "href" else none) = none := by simp
        rw [hif2, hif, Option.or_none]

theorem mcmasterLoop_records (cfg : Config) (atts : List AttachmentRecord) :
    mcmasterLoop cfg (atts.map attachmentJson) =
      .ok ((atts.filter attMatches).map
        (fun a => Call.post (mcmaster_forward_request cfg a.Content))) := by
  induction atts with
  | nil => simp [mcmasterLoop]
  | cons a rest ih =>
    by_cases hm : attMatches a
    · have hm' : (a.ContentType == "application/pdf" || a.ContentType == "application/octet-stream") = true := hm
      simp [mcmasterLoop, attachmentJson, lookupStr, ih, List.filter_cons, hm, hm',
        mcmaster_forward_to_divvy]
    · have hm' : (a.ContentType == "application/pdf" || a.ContentType == "application/octet-stream") = false := by
        simpa [attMatches] using hm
      simp [mcmasterLoop, attachmentJson, lookupStr, ih, List.filter_cons, hm, hm']

theorem topKartLoop_records (cfg : Config) (atts : List AttachmentRecord) :
    topKartLoop cfg (atts.map attachmentJson) =
      .ok ((atts.filter attMatches).map
        (fun a => Call.post (top_kart_forward_request cfg a.Content))) := by
  induction atts with
  | nil => simp [topKartLoop]
  | cons a rest ih =>
    by_cases hm : attMatches a
    · have hm' : (a.ContentType == "application/pdf" || a.ContentType == "application/octet-stream") = true := hm
      simp [topKartLoop, attachmentJson, lookupStr, ih, List.filter_cons, hm, hm',
        top_kart_forward_to_divvy]
    · have hm' : (a.ContentType == "application/pdf" || a.ContentType == "application/octet-stream") = false := by
        simpa [attMatches] using hm
      simp [topKartLoop, attachmentJson, lookupStr, ih, List.filter_cons, hm, hm']

/-!
Claim theorems.
-/

/-- C1: whenever the handler returns at all, the returned status object
is exactly statusCode 204, and an event without a body key, or whose body
does not decode as JSON, is acknowledged with 204, no calls made and no
exception.  (The claim as frozen also asserted that every event with a
decodable body containing HtmlBody returns 204 without raising; that part
is refuted by the separate counterexample, since the handler reads the
Attachments key unconditionally.) -/
theorem C1_handler_acknowledge :
    (∀ (env : Env) (event : List (String × String)) (r : StatusRet) (calls : List Call),
        handler env event = .ok (r, calls) → r = { statusCode := 204 })
    ∧ (∀ (env : Env) (event : List (String × String)),
        lookupStr event "body" = none →
        handler env event = .ok ({ statusCode := 204 }, []))
    ∧ (∀ (env : Env) (event : List (String × String)) (b : String),
        lookupStr event "body" = some b → env.loads b = none →
        handler env event = .ok ({ statusCode := 204 }, [])) := by
  refine ⟨?_, ?_, ?_⟩
  · intro env event r calls h
    unfold handler at h
    repeat' split at h
    all_goals simp_all
  · intro env event hb
    unfold handler
    rw [hb]
  · intro env event b hb hl
    unfold handler
    simp only [hb, hl]

/-- Witness for C1 at concrete inputs: an event with no body key is
acknowledged with 204 and an empty call trace. -/
theorem C1_witness : handler env1 [] = .ok ({ statusCode := 204 }, []) :=
  C1_handler_acknowledge.2.1 env1 [] rfl

/-- Counterexample to C1 as frozen: this event has a body that decodes as
a JSON object with HtmlBody present, yet the handler raises KeyError on
the missing Attachments key instead of returning 204. -/
theorem C1_counterexample :
    handler env1 [("body", bodyHelloNoAtt)] = .error (.keyError "Attachments") := rfl

/-- C2 (amended): on the Digi-Key success scenario with an Attachments
key present in the event body, the handler returns 204 and the call trace
holds exactly one outbound forward call, whose single attachment carries
the base64 encoding of the downloaded PDF bytes and whose subject is the
one the code builds, Receipt for Digi-Key transaction. -/
theorem C2_digikey_end_to_end :
    handler env2 [("body", scenarioBody)] =
      .ok ({ statusCode := 204 },
        [ Call.get (trackingRequest "https://track.example/x")
        , Call.get (pdfRequest "1a2b3c4d-1234-5678-9abc-1234567890ab")
        , Call.post (digikey_forward_request cfgA pdfBytes) ])
    ∧ (digikey_forward_request cfgA pdfBytes).Attachments
        = [{ Name := "receipt.pdf", Content := b64encode pdfBytes, ContentType := "application/pdf" }]
    ∧ b64encode pdfBytes = "JVBERi0xLjQuLi4="
    ∧ (digikey_forward_request cfgA pdfBytes).Subject = "Receipt for Digi-Key transaction" :=
  ⟨rfl, rfl, rfl, rfl⟩

/-- Counterexample to C2 as frozen: on the scenario event exactly as the
claim gives it, whose JSON body has no Attachments key, the handler
raises KeyError before reaching any vendor pipeline, so no forward call
is made; moreover the subject the code would build is Receipt for
Digi-Key transaction, not Invoice for Digi-Key transaction. -/
theorem C2_counterexample :
    handler env2 [("body", scenarioBodyNoAtt)] = .error (.keyError "Attachments")
    ∧ (digikey_forward_request cfgA pdfBytes).Subject ≠ "Invoice for Digi-Key transaction" :=
  ⟨rfl, by decide⟩

/-- C3 (amended): for every document in which each anchor carrying an
href has at least one content node, the link extractor returns the href
of the last anchor-with-href whose first content node is the text Review
Invoice, and an absent result when there is no such anchor.  (The frozen
claim said visible text content; the code compares only the first content
node, as the separate counterexample shows.) -/
theorem C3_last_review_href (doc : Html)
    (hne : ∀ a ∈ findAllForest isAnchorWithHref doc, forestHead? (contentsOf a) ≠ none) :
    digikey_get_invoice_tracking_url doc
      = .ok (lastReviewHref (findAllForest isAnchorWithHref doc)) := by
  have hhref : ∀ a ∈ findAllForest isAnchorWithHref doc, (attr? a "href").isSome = true := by
    intro a ha
    have hp := mem_findAllForest isAnchorWithHref doc a ha
    cases a with
    | text s => simp [isAnchorWithHref] at hp
    | elem t attrs cs =>
      simp only [isAnchorWithHref, Bool.and_eq_true] at hp
      simpa [attr?] using hp.2
  unfold digikey_get_invoice_tracking_url
  rw [trackingLoop_eq (findAllForest isAnchorWithHref doc) hne hhref none, Option.or_none]

/-- Witness for C3 at a concrete document with two review anchors: the
extractor returns the href of the last one. -/
theorem C3_witness : digikey_get_invoice_tracking_url c3docPos = .ok (some "u2") := by
  rw [C3_last_review_href c3docPos (by
    intro a ha
    rw [show findAllForest isAnchorWithHref c3docPos
        = [ Node.elem "a" [("href", "u1")] (forestOf [Node.text "Review Invoice"])
          , Node.elem "a" [("href", "u2")] (forestOf [Node.text "Review Invoice"]) ] from rfl] at ha
    rcases List.mem_cons.mp ha with h | h
    · subst h; simp [contentsOf, forestOf, forestHead?]
    · rcases List.mem_cons.mp h with h2 | h2
      · subst h2; simp [contentsOf, forestOf, forestHead?]
      · simp at h2)]
  rfl

/-- Counterexample to C3 as frozen: c3doc contains exactly one anchor
carrying an href, its visible text content is exactly Review Invoice, yet
the extractor returns an absent result, because the anchor wraps its text
in a span and the code only compares the first content node. -/
theorem C3_counterexample :
    findAllForest isAnchorWithHref c3doc = [c3anchor]
    ∧ textOfNode c3anchor = "Review Invoice"
    ∧ attr? c3anchor "href" = some "u"
    ∧ digikey_get_invoice_tracking_url c3doc = .ok none :=
  ⟨rfl, rfl, rfl, rfl⟩

/-- C4: on the document that parses to a single anchor carrying an href
but having no contents, the link extractor raises IndexError instead of
returning a URL or an absent result: the code reads contents at index
zero of every anchor-with-href without guarding against emptiness. -/
theorem C4_empty_anchor_raises :
    digikey_get_invoice_tracking_url c4doc = .error .indexError := rfl

/-- C5: when the tracking URL answers with a status other than 302, the
redirect resolver returns an absent result after exactly the one tracking
GET, and the whole Digi-Key pipeline, having extracted that tracking URL,
performs no PDF-download GET and no forward POST. -/
theorem C5_non_302_short_circuits (env : Env) (invoice_url s : String)
    (h302 : (env.get (trackingRequest invoice_url)).status_code ≠ 302)
    (hext : digikey_get_invoice_tracking_url (env.parseHtml s) = .ok (some invoice_url)) :
    digikey_get_invoice_uuid env invoice_url
      = .ok (none, [Call.get (trackingRequest invoice_url)])
    ∧ process_digikey_email env (.str s)
      = .ok ((), [Call.get (trackingRequest invoice_url)]) := by
  have huuid : digikey_get_invoice_uuid env invoice_url
      = .ok (none, [Call.get (trackingRequest invoice_url)]) := by
    simp only [digikey_get_invoice_uuid]
    rw [if_pos h302]
  refine ⟨huuid, ?_⟩
  simp only [process_digikey_email, hext, huuid]

/-- Witness for C5 at a concrete environment whose every GET answers 404
and whose parser finds a review anchor. -/
theorem C5_witness :
    digikey_get_invoice_uuid env5 "https://t.example/a"
      = .ok (none, [Call.get (trackingRequest "https://t.example/a")])
    ∧ process_digikey_email env5 (.str "x")
      = .ok ((), [Call.get (trackingRequest "https://t.example/a")]) :=
  C5_non_302_short_circuits env5 "https://t.example/a" "x" (by decide) rfl

/-- C6: on a 302 tracking response whose page contains no script tag, the
redirect resolver raises AttributeError instead of returning an absent
result: soup.script is None there and the code reads its contents without
guarding. -/
theorem C6_missing_script_raises :
    digikey_get_invoice_uuid env6 "https://tracking.example/y" = .error .attributeError := rfl

/-- C7 (amended): the invoice UUID regex matches a whole string exactly
when the string has the grouped 8-4-4-4-12 shape over lowercase letters
and digits, the class [a-z0-9], not merely hexadecimal digits; a search
that succeeds returns a substring of that shape occurring in the text,
and a search over text containing such a substring succeeds. -/
theorem C7_regex_shape :
    (∀ u : List Char, matchUuidAt u = some (u, []) ↔ SpecUuidShaped isLowerAlnum u)
    ∧ (∀ s u : List Char, reSearchUuid s = some u →
        SpecUuidShaped isLowerAlnum u ∧ ∃ p q : List Char, s = p ++ u ++ q)
    ∧ (∀ p u q : List Char, SpecUuidShaped isLowerAlnum u →
        (reSearchUuid (p ++ u ++ q)).isSome = true) := by
  refine ⟨?_, reSearchUuid_sound, reSearchUuid_complete⟩
  intro u
  constructor
  · intro h
    exact ((matchUuidAt_iff u u []).mp h).1
  · intro h
    exact (matchUuidAt_iff u u []).mpr ⟨h, by simp⟩

/-- Witness for C7: searching the scenario script text finds a substring
of the lowercase-alphanumeric grouped shape. -/
theorem C7_witness :
    SpecUuidShaped isLowerAlnum uuidChars
    ∧ ∃ p q : List Char, scriptText.toList = p ++ uuidChars ++ q :=
  C7_regex_shape.2.1 scriptText.toList uuidChars rfl

/-- Counterexample to C7 as frozen: a string of letters g in the grouped
shape is matched in full by the regex, yet it is not of the canonical
hexadecimal UUID shape, since g is not a hexadecimal digit. -/
theorem C7_counterexample :
    matchUuidAt gUuid = some (gUuid, []) ∧ ¬ SpecUuidShaped isLowerHex gUuid := by
  constructor
  · rfl
  · rintro ⟨g1, g2, g3, g4, g5, hg1, _, _, _, _, hcls, hu⟩
    have htake : gUuid.take 8 = g1 := by
      rw [hu, ← hg1, List.take_left]
    have hmem : 'g' ∈ g1 := by
      rw [← htake]
      decide
    have hhex := hcls 'g'
      (List.mem_append.mpr (Or.inl (List.mem_append.mpr (Or.inl
        (List.mem_append.mpr (Or.inl (List.mem_append.mpr (Or.inl hmem))))))))
    exact absurd hhex (by decide)

/-- C8: the document fetcher issues exactly one GET, to the fixed
Digi-Key PDF endpoint, with the invoice UUID as the id query parameter
and the browser-like User-Agent header; it returns the raw binary
response content when the status is exactly 200 and an absent result
otherwise. -/
theorem C8_download_pdf_contract (env : Env) (invoice_uuid : String) :
    digikey_download_pdf env invoice_uuid =
      ((if (env.get { url := "https://www.digikey.com/MyDigiKey/Invoice/PDF"
                    , params := [("id", invoice_uuid)]
                    , headers := [("User-Agent", USER_AGENT)] }).status_code = 200
        then some (env.get (pdfRequest invoice_uuid)).content
        else none),
       [Call.get (pdfRequest invoice_uuid)]) := by
  simp only [digikey_download_pdf]
  by_cases h : (env.get (pdfRequest invoice_uuid)).status_code = 200
  · simp [pdfRequest, h]
  · simp [pdfRequest, h]

/-- C9: on an attachment list of the webhook schema, each direct
attachment pipeline forwards, in the given order and one call per
attachment, exactly those attachments whose declared content type is
application/pdf or application/octet-stream, with the Content string
passed through unchanged. -/
theorem C9_direct_attachment_filter (cfg : Config) (atts : List AttachmentRecord) :
    process_mcmaster_email cfg (.arr (atts.map attachmentJson))
      = .ok ((), (atts.filter attMatches).map
          (fun a => Call.post (mcmaster_forward_request cfg a.Content)))
    ∧ process_top_kart_email cfg (.arr (atts.map attachmentJson))
      = .ok ((), (atts.filter attMatches).map
          (fun a => Call.post (top_kart_forward_request cfg a.Content))) := by
  constructor
  · simp only [process_mcmaster_email, mcmasterLoop_records]
  · simp only [process_top_kart_email, topKartLoop_records]

/-- C10: every forward request of every vendor pipeline carries exactly
one attachment, named receipt.pdf with content type application/pdf, and
renaming the inbound attachments changes nothing in the outbound calls of
the direct-attachment pipelines. -/
theorem C10_forward_attachment_shape :
    (∀ (cfg : Config) (pdf : List Nat),
        (digikey_forward_request cfg pdf).Attachments
          = [{ Name := "receipt.pdf", Content := b64encode pdf, ContentType := "application/pdf" }])
    ∧ (∀ (cfg : Config) (content : String),
        (mcmaster_forward_request cfg content).Attachments
          = [{ Name := "receipt.pdf", Content := content, ContentType := "application/pdf" }])
    ∧ (∀ (cfg : Config) (content : String),
        (top_kart_forward_request cfg content).Attachments
          = [{ Name := "receipt.pdf", Content := content, ContentType := "application/pdf" }])
    ∧ (∀ (cfg : Config) (f : AttachmentRecord → String) (atts : List AttachmentRecord),
        process_mcmaster_email cfg (.arr ((atts.map (renameAtt f)).map attachmentJson))
          = process_mcmaster_email cfg (.arr (atts.map attachmentJson)))
    ∧ (∀ (cfg : Config) (f : AttachmentRecord → String) (atts : List AttachmentRecord),
        process_top_kart_email cfg (.arr ((atts.map (renameAtt f)).map attachmentJson))
          = process_top_kart_email cfg (.arr (atts.map attachmentJson))) := by
  refine ⟨fun _ _ => rfl, fun _ _ => rfl, fun _ _ => rfl, ?_, ?_⟩
  · intro cfg f atts
    simp only [process_mcmaster_email, mcmasterLoop_records]
    have hfm : ((atts.map (renameAtt f)).filter attMatches).map
        (fun a => Call.post (mcmaster_forward_request cfg a.Content))
        = (atts.filter attMatches).map
            (fun a => Call.post (mcmaster_forward_request cfg a.Content)) := by
      induction atts with
      | nil => simp
      | cons a rest ih =>
        simp only [List.map_cons, List.filter_cons]
        have hct : attMatches (renameAtt f a) = attMatches a := rfl
        rw [hct]
        by_cases hm : attMatches a
        · simp only [hm, if_true, List.map_cons, ih]
          rfl
        · simp only [hm, Bool.false_eq_true, if_false, ih]
    rw [hfm]
  · intro cfg f atts
    simp only [process_top_kart_email, topKartLoop_records]
    have hfm : ((atts.map (renameAtt f)).filter attMatches).map
        (fun a => Call.post (top_kart_forward_request cfg a.Content))
        = (atts.filter attMatches).map
            (fun a => Call.post (top_kart_forward_request cfg a.Content)) := by
      induction atts with
      | nil => simp
      | cons a rest ih =>
        simp only [List.map_cons, List.filter_cons]
        have hct : attMatches (renameAtt f a) = attMatches a := rfl
        rw [hct]
        by_cases hm : attMatches a
        · simp only [hm, if_true, List.map_cons, ih]
          rfl
        · simp only [hm, Bool.false_eq_true, if_false, ih]
    rw [hfm]
